import Mathlib

/-!
Shallow embedding of the order execution engine (TypeScript sources:
services/orderProcessor.ts, services/mockDexRouter.ts,
services/websocketManager.ts, server.ts order routes).
Numeric values (JS numbers) are modelled as rationals; randomness
(Math.random draws) is passed as explicit parameters in [0, 1).
-/

namespace OrderExecEngine

/-- Order lifecycle status. The TypeScript union in types/order.ts lists
pending, routing, building, submitted, confirmed, failed; the cancellation
route additionally stores the string cancelled in the database, so it is
included here. -/
inductive OrderStatus
  | pending
  | routing
  | building
  | submitted
  | confirmed
  | failed
  | cancelled
  deriving DecidableEq, Repr

/-- Terminal statuses per the lifecycle graph: confirmed, failed, cancelled. -/
def OrderStatus.isTerminal : OrderStatus → Bool
  | .confirmed => true
  | .failed => true
  | .cancelled => true
  | _ => false

inductive OrderType
  | market
  | limit
  | sniper
  deriving DecidableEq, Repr

inductive DexName
  | raydium
  | meteora
  deriving DecidableEq, Repr

/-- String form of a venue name, as used for metrics keys and execution data. -/
def DexName.str : DexName → String
  | .raydium => "raydium"
  | .meteora => "meteora"

/-- Order record (types/order.ts). Timestamp fields are outside the model. -/
structure Order where
  id : String
  type : OrderType
  tokenIn : String
  tokenOut : String
  amountIn : ℚ
  slippage : ℚ
  status : OrderStatus
  userId : Option String
  deriving DecidableEq, Repr

/-- Execution data attached to an order on a confirmed or failed transition
(types/order.ts ExecutionData). -/
structure ExecutionData where
  txHash : Option String := none
  executedPrice : Option ℚ := none
  dex : Option String := none
  gasUsed : Option ℚ := none
  error : Option String := none
  deriving DecidableEq, Repr

/-- DEX quote (types/dex.ts DexQuote); the timestamp field is outside the model. -/
structure DexQuote where
  dex : DexName
  price : ℚ
  fee : ℚ
  liquidity : ℚ
  estimatedGas : ℚ
  amountOut : ℚ
  priceImpact : ℚ
  deriving DecidableEq, Repr

/-- Routing decision (types/dex.ts RoutingDecision); the human-readable
reason string is pure logging text and is outside the model. -/
structure RoutingDecision where
  dex : DexName
  price : ℚ
  fee : ℚ
  estimatedGas : ℚ
  alternatives : List DexQuote
  deriving DecidableEq, Repr

/-- Swap execution result (types/dex.ts SwapResult); timestamp outside the model. -/
structure SwapResult where
  txHash : String
  executedPrice : ℚ
  gasUsed : ℚ
  slippageImpact : ℚ
  dex : DexName
  deriving DecidableEq, Repr

/-- Shared base price constant of MockDexRouter. -/
def basePrice : ℚ := 100

/-- Raydium quote (mockDexRouter.ts getRaydiumQuote). The two Math.random
draws are passed explicitly: r is the price-variance draw, l the liquidity
draw, both in [0, 1). Network delay is timing only and is outside the model. -/
def getRaydiumQuote (tokenIn tokenOut : String) (amount r l : ℚ) : DexQuote :=
  let priceVariance := 98 / 100 + r * (4 / 100)
  let price := basePrice * priceVariance
  let fee : ℚ := 25 / 10000
  let amountOut := amount * price * (1 - fee)
  let priceImpact := (amount / 1000000) * (1 / 10)
  { dex := DexName.raydium
    price := price
    fee := fee
    liquidity := 1000000 + l * 500000
    estimatedGas := 1 / 10000
    amountOut := amountOut
    priceImpact := priceImpact }

/-- Meteora quote (mockDexRouter.ts getMeteorQuote), same conventions. -/
def getMeteorQuote (tokenIn tokenOut : String) (amount r l : ℚ) : DexQuote :=
  let priceVariance := 97 / 100 + r * (6 / 100)
  let price := basePrice * priceVariance
  let fee : ℚ := 2 / 1000
  let amountOut := amount * price * (1 - fee)
  let priceImpact := (amount / 800000) * (8 / 100)
  { dex := DexName.meteora
    price := price
    fee := fee
    liquidity := 800000 + l * 400000
    estimatedGas := 8 / 100000
    amountOut := amountOut
    priceImpact := priceImpact }

/-- Venue selection (mockDexRouter.ts selectBestDex). The source also
computes effective prices price * (1 + fee) that feed into nothing; they are
dead code and omitted. The amount parameter is likewise unused by the source
beyond logging. -/
def selectBestDex (raydiumQuote meteoraQuote : DexQuote) (amount : ℚ) :
    RoutingDecision :=
  let alternatives := [raydiumQuote, meteoraQuote]
  let raydiumTotalCost := raydiumQuote.amountOut + raydiumQuote.estimatedGas
  let meteoraTotalCost := meteoraQuote.amountOut + meteoraQuote.estimatedGas
  let selectedDex : DexName :=
    if raydiumTotalCost > meteoraTotalCost then DexName.meteora
    else if meteoraTotalCost > raydiumTotalCost then DexName.raydium
    else if raydiumQuote.liquidity > meteoraQuote.liquidity then DexName.raydium
    else DexName.meteora
  let selectedQuote :=
    if selectedDex = DexName.raydium then raydiumQuote else meteoraQuote
  { dex := selectedDex
    price := selectedQuote.price
    fee := selectedQuote.fee
    estimatedGas := selectedQuote.estimatedGas
    alternatives := alternatives }

/-- Swap execution (mockDexRouter.ts executeSwap). The Math.random slippage
draw u in [0, 1) and the generated transaction hash are passed explicitly;
the execution delay is timing only and is outside the model. -/
def executeSwap (dex : DexName) (order : Order) (u : ℚ) (tx : String) :
    SwapResult :=
  let slippageImpact := 1 - u * order.slippage
  let executedPrice := basePrice * slippageImpact
  let gasUsed : ℚ := if dex = DexName.raydium then 1 / 10000 else 8 / 100000
  { txHash := tx
    executedPrice := executedPrice
    gasUsed := gasUsed
    slippageImpact := slippageImpact
    dex := dex }

/-- C5: every quote produced by either venue adapter satisfies
amountOut = amount * price * (1 - fee) exactly, with price and fee the fields
of the quote itself. -/
theorem quote_amountOut_formula (tokenIn tokenOut : String) (amount r l : ℚ) :
    ((getRaydiumQuote tokenIn tokenOut amount r l).amountOut =
      amount * (getRaydiumQuote tokenIn tokenOut amount r l).price *
        (1 - (getRaydiumQuote tokenIn tokenOut amount r l).fee)) ∧
    ((getMeteorQuote tokenIn tokenOut amount r l).amountOut =
      amount * (getMeteorQuote tokenIn tokenOut amount r l).price *
        (1 - (getMeteorQuote tokenIn tokenOut amount r l).fee)) := by
  exact ⟨rfl, rfl⟩

/-- C2: selectBestDex picks the venue with the lower total cost
(amountOut + estimatedGas); on exact cost ties it picks the venue with higher
liquidity; on a full tie it resolves to the fixed venue meteora; and the
returned decision always carries both input quotes as alternatives. -/
theorem selectBestDex_policy (rq mq : DexQuote) (amount : ℚ) :
    ((rq.amountOut + rq.estimatedGas < mq.amountOut + mq.estimatedGas) →
      (selectBestDex rq mq amount).dex = DexName.raydium) ∧
    ((mq.amountOut + mq.estimatedGas < rq.amountOut + rq.estimatedGas) →
      (selectBestDex rq mq amount).dex = DexName.meteora) ∧
    ((rq.amountOut + rq.estimatedGas = mq.amountOut + mq.estimatedGas) →
      mq.liquidity < rq.liquidity →
      (selectBestDex rq mq amount).dex = DexName.raydium) ∧
    ((rq.amountOut + rq.estimatedGas = mq.amountOut + mq.estimatedGas) →
      rq.liquidity < mq.liquidity →
      (selectBestDex rq mq amount).dex = DexName.meteora) ∧
    ((rq.amountOut + rq.estimatedGas = mq.amountOut + mq.estimatedGas) →
      rq.liquidity = mq.liquidity →
      (selectBestDex rq mq amount).dex = DexName.meteora) ∧
    (selectBestDex rq mq amount).alternatives = [rq, mq] := by
  unfold selectBestDex
  dsimp only
  split_ifs with h1 h2 h3 <;>
    refine ⟨fun hlt => ?_, fun hlt => ?_, fun heq hliq => ?_,
      fun heq hliq => ?_, fun heq hliq => ?_, rfl⟩ <;>
    first
      | rfl
      | (exact absurd hlt (by linarith))
      | (exact absurd hliq (by linarith))
      | (exact absurd h1 (by push_neg; linarith))
      | (exact absurd h2 (by push_neg; linarith))
      | (exact absurd h3 (by push_neg; linarith))

/-- Sample raydium-side quote used by concrete witnesses. -/
def sampleRaydiumQuote : DexQuote :=
  { dex := DexName.raydium, price := 5, fee := 0, liquidity := 7,
    estimatedGas := 1, amountOut := 10, priceImpact := 0 }

/-- Sample meteora-side quote used by concrete witnesses. -/
def sampleMeteoraQuote : DexQuote :=
  { dex := DexName.meteora, price := 6, fee := 0, liquidity := 9,
    estimatedGas := 2, amountOut := 10, priceImpact := 0 }

/-- Witness for C2 at concrete quotes: raydium total cost 11 beats meteora
total cost 12. -/
theorem selectBestDex_policy_witness :
    (sampleRaydiumQuote.amountOut + sampleRaydiumQuote.estimatedGas <
      sampleMeteoraQuote.amountOut + sampleMeteoraQuote.estimatedGas) ∧
    (selectBestDex sampleRaydiumQuote sampleMeteoraQuote 3).dex =
      DexName.raydium := by
  have h : sampleRaydiumQuote.amountOut + sampleRaydiumQuote.estimatedGas <
      sampleMeteoraQuote.amountOut + sampleMeteoraQuote.estimatedGas := by
    norm_num [sampleRaydiumQuote, sampleMeteoraQuote]
  exact ⟨h, (selectBestDex_policy sampleRaydiumQuote sampleMeteoraQuote 3).1 h⟩

/-- C6: for any slippage-draw value u in [0, 1) and positive slippage
tolerance, the executed price has the form basePrice * (1 - w) with
w in [0, slippage), and is bounded between basePrice * (1 - slippage)
and basePrice. -/
theorem executeSwap_slippage_bounded (dex : DexName) (order : Order)
    (u : ℚ) (tx : String) (hu0 : 0 ≤ u) (hu1 : u < 1)
    (hs : 0 < order.slippage) :
    (∃ w, 0 ≤ w ∧ w < order.slippage ∧
      (executeSwap dex order u tx).executedPrice = basePrice * (1 - w)) ∧
    basePrice * (1 - order.slippage) ≤
      (executeSwap dex order u tx).executedPrice ∧
    (executeSwap dex order u tx).executedPrice ≤ basePrice := by
  have hprice : (executeSwap dex order u tx).executedPrice =
      basePrice * (1 - u * order.slippage) := rfl
  have hw0 : 0 ≤ u * order.slippage := mul_nonneg hu0 (le_of_lt hs)
  have hws : u * order.slippage < order.slippage := by nlinarith
  refine ⟨⟨u * order.slippage, hw0, hws, hprice⟩, ?_, ?_⟩
  · rw [hprice]; unfold basePrice; nlinarith
  · rw [hprice]; unfold basePrice; nlinarith

/-- Sample order used by concrete witnesses: market SOL to USDC order with
slippage tolerance 1/100. -/
def sampleOrder : Order :=
  { id := "o1", type := OrderType.market, tokenIn := "SOL",
    tokenOut := "USDC", amountIn := 1, slippage := 1 / 100,
    status := OrderStatus.pending, userId := none }

/-- Witness for C6 at the sample order with draw u = 1/2. -/
theorem executeSwap_slippage_bounded_witness :
    (0 ≤ (1 : ℚ) / 2) ∧ ((1 : ℚ) / 2 < 1) ∧ (0 < sampleOrder.slippage) ∧
    ((∃ w, 0 ≤ w ∧ w < sampleOrder.slippage ∧
      (executeSwap DexName.raydium sampleOrder (1 / 2) "t").executedPrice =
        basePrice * (1 - w)) ∧
    basePrice * (1 - sampleOrder.slippage) ≤
      (executeSwap DexName.raydium sampleOrder (1 / 2) "t").executedPrice ∧
    (executeSwap DexName.raydium sampleOrder (1 / 2) "t").executedPrice ≤
      basePrice) :=
  ⟨by norm_num, by norm_num, by norm_num [sampleOrder],
    executeSwap_slippage_bounded DexName.raydium sampleOrder (1 / 2) "t"
      (by norm_num) (by norm_num) (by norm_num [sampleOrder])⟩

/-! Order processor state model (services/orderProcessor.ts). The Redis
cache, the PostgreSQL orders and order_events tables, the routing_decisions
table, the WebSocket emissions and the Redis stats counters are modelled as
explicit components of one engine state. -/

/-- Data payload of an order_events row: either serialized execution data
(written by updateOrderStatus) or a cancellation reason (written by the
DELETE route). -/
inductive EventData
  | exec (d : ExecutionData)
  | cancelReason (r : String)
  deriving DecidableEq, Repr

/-- Append-only order_events row; the timestamp column is outside the model
(rows are kept in insertion order). -/
structure OrderEvent where
  orderId : String
  status : OrderStatus
  data : Option EventData
  deriving DecidableEq, Repr

/-- Redis hash entry for one order key. -/
structure CacheEntry where
  status : OrderStatus
  executionData : Option ExecutionData
  deriving DecidableEq, Repr

/-- Durable orders row projection (the columns updateOrderStatus touches). -/
structure OrderRow where
  status : OrderStatus
  executionData : Option ExecutionData
  deriving DecidableEq, Repr

/-- Engine state: fast cache, durable rows, event log, persisted routing
decisions, WebSocket notifications issued, and stats counters. -/
structure EngineState where
  cache : List (String × CacheEntry)
  orders : List (String × OrderRow)
  events : List OrderEvent
  decisions : List (String × RoutingDecision)
  notifications : List (String × OrderStatus × Option ExecutionData)
  counters : List (String × Nat)
  deriving DecidableEq, Repr

/-- Association-list lookup by key. -/
def alookup {β : Type} : List (String × β) → String → Option β
  | [], _ => none
  | (k, v) :: rest, key => if k = key then some v else alookup rest key

/-- Redis hset semantics on the order hash: status is always written;
the executionData field is written only when data is present, otherwise the
previous value is kept (the source spreads data conditionally). A missing
key is created. -/
def cacheUpsert : List (String × CacheEntry) → String → OrderStatus →
    Option ExecutionData → List (String × CacheEntry)
  | [], key, st, d => [(key, ⟨st, d⟩)]
  | (k, e) :: rest, key, st, d =>
    if k = key then
      (k, { status := st,
            executionData :=
              match d with
              | some x => some x
              | none => e.executionData }) :: rest
    else (k, e) :: cacheUpsert rest key st d

/-- SQL UPDATE orders SET status, updated_at, execution_data WHERE id: only
an existing row is changed, and execution_data is overwritten with the new
data or NULL. -/
def rowUpdate : List (String × OrderRow) → String → OrderStatus →
    Option ExecutionData → List (String × OrderRow)
  | [], _, _, _ => []
  | (k, r) :: rest, key, st, d =>
    if k = key then (k, ⟨st, d⟩) :: rest
    else (k, r) :: rowUpdate rest key st d

/-- The three fallible awaited effects inside updateOrderStatus, in source
order. The WebSocket emission is not fallible from the caller's view because
sendMessage catches its own errors. -/
inductive Effect
  | cacheUpsertStep
  | rowUpdateStep
  | eventInsertStep
  deriving DecidableEq, Repr

/-- OrderProcessor.updateOrderStatus with an explicit failure oracle for the
awaited store operations. The source performs, in order: Redis hset, SQL
UPDATE of the orders row, SQL INSERT of an order_events row, then the
WebSocket emission; an exception is logged and rethrown, and already
performed effects are not rolled back. The returned pair is the error
surfaced to the caller (if any) together with the state as actually
mutated. -/
def updateOrderStatusF (fail : Effect → Bool) (s : EngineState)
    (orderId : String) (status : OrderStatus) (data : Option ExecutionData) :
    Option String × EngineState :=
  if fail Effect.cacheUpsertStep then (some "cache upsert failed", s)
  else
    let s1 : EngineState :=
      { s with cache := cacheUpsert s.cache orderId status data }
    if fail Effect.rowUpdateStep then (some "row update failed", s1)
    else
      let s2 : EngineState :=
        { s1 with orders := rowUpdate s1.orders orderId status data }
      if fail Effect.eventInsertStep then (some "event insert failed", s2)
      else
        let s3 : EngineState :=
          { s2 with
            events := s2.events ++
              [{ orderId := orderId, status := status,
                 data := data.map EventData.exec }] }
        (none, { s3 with
          notifications := s3.notifications ++ [(orderId, status, data)] })

/-- OrderProcessor.updateOrderStatus on the happy path (no store failure). -/
def updateOrderStatus (s : EngineState) (orderId : String)
    (status : OrderStatus) (data : Option ExecutionData) : EngineState :=
  (updateOrderStatusF (fun _ => false) s orderId status data).2

/-- Helper: updating an existing row stores exactly the new status and data. -/
theorem alookup_rowUpdate_self (l : List (String × OrderRow)) (key : String)
    (st : OrderStatus) (d : Option ExecutionData) (r : OrderRow)
    (h : alookup l key = some r) :
    alookup (rowUpdate l key st d) key = some ⟨st, d⟩ := by
  induction l with
  | nil => simp [alookup] at h
  | cons p rest ih =>
    obtain ⟨k, v⟩ := p
    by_cases hk : k = key
    · simp [rowUpdate, hk, alookup]
    · simp only [alookup, if_neg hk] at h
      simp [rowUpdate, hk, alookup, ih h]

/-- State with order o1 already in the terminal status confirmed. -/
def terminalState : EngineState :=
  { cache := [("o1", ⟨OrderStatus.confirmed, none⟩)],
    orders := [("o1", ⟨OrderStatus.confirmed, none⟩)],
    events := [⟨"o1", OrderStatus.confirmed, none⟩],
    decisions := [], notifications := [], counters := [] }

/-- Counterexample for C1: order o1 is in the terminal status confirmed, yet
a transition to routing through the choke point is applied: the stored
status changes and an event is appended, so the transition is neither
rejected nor ignored. -/
theorem terminal_transition_applied :
    (alookup terminalState.orders "o1").map OrderRow.status =
      some OrderStatus.confirmed ∧
    (alookup (updateOrderStatus terminalState "o1" OrderStatus.routing
        none).orders "o1").map OrderRow.status = some OrderStatus.routing ∧
    (updateOrderStatus terminalState "o1" OrderStatus.routing
        none).events.length = terminalState.events.length + 1 := by
  refine ⟨rfl, rfl, rfl⟩

/-- C1 (amended): the transition choke point has no terminal-status guard.
For an order whose stored row is in a terminal status, updateOrderStatus
still overwrites the stored status and data, appends an order event and
notifies the fan-out, exactly as for any other order. -/
theorem updateOrderStatus_ignores_terminal (s : EngineState)
    (orderId : String) (row : OrderRow)
    (hrow : alookup s.orders orderId = some row)
    (hterm : row.status.isTerminal = true)
    (status : OrderStatus) (data : Option ExecutionData) :
    alookup (updateOrderStatus s orderId status data).orders orderId =
      some ⟨status, data⟩ ∧
    (updateOrderStatus s orderId status data).events =
      s.events ++ [⟨orderId, status, data.map EventData.exec⟩] ∧
    (updateOrderStatus s orderId status data).notifications =
      s.notifications ++ [(orderId, status, data)] := by
  refine ⟨?_, rfl, rfl⟩
  exact alookup_rowUpdate_self s.orders orderId status data row hrow

/-- Witness for C1 (amended) at the concrete terminal state. -/
theorem updateOrderStatus_ignores_terminal_witness :
    (alookup terminalState.orders "o1" =
      some ⟨OrderStatus.confirmed, none⟩) ∧
    (OrderStatus.confirmed.isTerminal = true) ∧
    (alookup (updateOrderStatus terminalState "o1" OrderStatus.routing
        none).orders "o1" = some ⟨OrderStatus.routing, none⟩ ∧
    (updateOrderStatus terminalState "o1" OrderStatus.routing none).events =
      terminalState.events ++ [⟨"o1", OrderStatus.routing, none⟩] ∧
    (updateOrderStatus terminalState "o1" OrderStatus.routing
        none).notifications =
      terminalState.notifications ++ [("o1", OrderStatus.routing, none)]) :=
  ⟨rfl, rfl, by
    have h := updateOrderStatus_ignores_terminal terminalState "o1"
      ⟨OrderStatus.confirmed, none⟩ rfl rfl OrderStatus.routing none
    simpa using h⟩

/-- State with order o1 in status pending. -/
def pendingState : EngineState :=
  { cache := [("o1", ⟨OrderStatus.pending, none⟩)],
    orders := [("o1", ⟨OrderStatus.pending, none⟩)],
    events := [⟨"o1", OrderStatus.pending, none⟩],
    decisions := [], notifications := [], counters := [] }

/-- Failure oracle that fails exactly the durable row update. -/
def failRowOnly : Effect → Bool
  | Effect.rowUpdateStep => true
  | _ => false

/-- Counterexample for C3: when the durable row update fails, the operation
reports an error to the caller, yet the fast-cache upsert has already
happened and is not rolled back, so the caller observes a changed state on
error. -/
theorem transition_partial_effect :
    (updateOrderStatusF failRowOnly pendingState "o1" OrderStatus.routing
        none).1 = some "row update failed" ∧
    (updateOrderStatusF failRowOnly pendingState "o1" OrderStatus.routing
        none).2.cache = [("o1", ⟨OrderStatus.routing, none⟩)] ∧
    (updateOrderStatusF failRowOnly pendingState "o1" OrderStatus.routing
        none).2.cache ≠ pendingState.cache ∧
    (updateOrderStatusF failRowOnly pendingState "o1" OrderStatus.routing
        none).2.orders = pendingState.orders ∧
    (updateOrderStatusF failRowOnly pendingState "o1" OrderStatus.routing
        none).2.events = pendingState.events := by
  refine ⟨rfl, rfl, ?_, rfl, rfl⟩
  intro h
  simp [pendingState, updateOrderStatusF, failRowOnly, cacheUpsert] at h

/-- C3 (amended): updateOrderStatus attempts its effects in the fixed source
order cache upsert, durable row update, event append, notification; when
every store operation succeeds all four effects occur and no error is
surfaced, and when a store operation fails the error is surfaced and the
remaining effects are skipped, but effects already performed are kept (no
rollback), so the operation is not atomic from the caller's view. -/
theorem updateOrderStatus_effect_sequence (fail : Effect → Bool)
    (s : EngineState) (orderId : String) (status : OrderStatus)
    (data : Option ExecutionData) :
    ((∀ e, fail e = false) →
      updateOrderStatusF fail s orderId status data =
        (none,
         { cache := cacheUpsert s.cache orderId status data,
           orders := rowUpdate s.orders orderId status data,
           events := s.events ++
             [{ orderId := orderId, status := status,
                data := data.map EventData.exec }],
           decisions := s.decisions,
           notifications := s.notifications ++ [(orderId, status, data)],
           counters := s.counters })) ∧
    (fail Effect.cacheUpsertStep = true →
      updateOrderStatusF fail s orderId status data =
        (some "cache upsert failed", s)) ∧
    (fail Effect.cacheUpsertStep = false →
      fail Effect.rowUpdateStep = true →
      updateOrderStatusF fail s orderId status data =
        (some "row update failed",
         { s with cache := cacheUpsert s.cache orderId status data })) ∧
    (fail Effect.cacheUpsertStep = false →
      fail Effect.rowUpdateStep = false →
      fail Effect.eventInsertStep = true →
      updateOrderStatusF fail s orderId status data =
        (some "event insert failed",
         { s with
            cache := cacheUpsert s.cache orderId status data,
            orders := rowUpdate s.orders orderId status data })) := by
  refine ⟨fun hall => ?_, fun h1 => ?_, fun h1 h2 => ?_, fun h1 h2 h3 => ?_⟩
  · simp [updateOrderStatusF, hall Effect.cacheUpsertStep,
      hall Effect.rowUpdateStep, hall Effect.eventInsertStep]
  · simp [updateOrderStatusF, h1]
  · simp [updateOrderStatusF, h1, h2]
  · simp [updateOrderStatusF, h1, h2, h3]

/-- Witness for C3 (amended): with no store failure, all four effects occur
on the concrete pending state. -/
theorem updateOrderStatus_effect_sequence_witness :
    (∀ e, (fun _ : Effect => false) e = false) ∧
    updateOrderStatusF (fun _ => false) pendingState "o1"
        OrderStatus.routing none =
      (none,
       { cache := cacheUpsert pendingState.cache "o1" OrderStatus.routing none,
         orders := rowUpdate pendingState.orders "o1" OrderStatus.routing none,
         events := pendingState.events ++
           [{ orderId := "o1", status := OrderStatus.routing,
              data := Option.map EventData.exec none }],
         decisions := pendingState.decisions,
         notifications := pendingState.notifications ++
           [("o1", OrderStatus.routing, none)],
         counters := pendingState.counters }) :=
  ⟨fun _ => rfl,
    (updateOrderStatus_effect_sequence (fun _ => false) pendingState "o1"
      OrderStatus.routing none).1 (fun _ => rfl)⟩

/-- Redis incr: increments a counter key, creating it at 1 when absent. -/
def incrKey : List (String × Nat) → String → List (String × Nat)
  | [], key => [(key, 1)]
  | (k, n) :: rest, key =>
    if k = key then (k, n + 1) :: rest else (k, n) :: incrKey rest key

/-- OrderProcessor.updateMetrics: always increments the total counter; on
success increments the successful counter and, when the dex string is
nonempty, the per-venue routed counter; on failure increments the failed
counter. -/
def updateMetrics (c : List (String × Nat)) (dex : String) (success : Bool) :
    List (String × Nat) :=
  let c1 := incrKey c "stats:total_orders"
  if success then
    let c2 := incrKey c1 "stats:successful_orders"
    if dex = "" then c2 else incrKey c2 ("stats:" ++ dex ++ "_routed")
  else incrKey c1 "stats:failed_orders"

/-- OrderProcessor.persistRoutingDecision: appends a routing_decisions row. -/
def persistRoutingDecision (s : EngineState) (orderId : String)
    (d : RoutingDecision) : EngineState :=
  { s with decisions := s.decisions ++ [(orderId, d)] }

/-- Promise.all over the two quote requests: it rejects as soon as either
request rejects. With both rejecting, the surfaced error is the one that
settles first in time; the model lets the raydium error take precedence. -/
def promiseAllTwo :
    Except String DexQuote → Except String DexQuote →
    Except String (DexQuote × DexQuote)
  | Except.error e, _ => Except.error e
  | Except.ok _, Except.error e => Except.error e
  | Except.ok a, Except.ok b => Except.ok (a, b)

/-- Catch block of processOrder: transitions the order to failed carrying
the error message in its execution data and bumps the failure metrics with
an empty dex string; the caught error itself is rethrown by processOrder. -/
def failOrder (s : EngineState) (orderId : String) (e : String) :
    EngineState :=
  let ed : ExecutionData := { error := some e }
  let s2 := updateOrderStatus s orderId OrderStatus.failed (some ed)
  { s2 with counters := updateMetrics s2.counters "" false }

/-- OrderProcessor.processOrder. The outcomes of the fallible collaborator
calls are passed explicitly: rq and mq are the settled quote requests and
exec is the settled swap execution per venue. The try block transitions
routing, then on success persists the routing decision, transitions
building and submitted, executes, transitions confirmed and bumps success
metrics; the single catch block (failOrder) transitions failed with the
error message, bumps failure metrics, and the same error is rethrown. -/
def processOrder (s : EngineState) (order : Order)
    (rq mq : Except String DexQuote)
    (exec : DexName → Except String SwapResult) :
    Except String ExecutionData × EngineState :=
  let s1 := updateOrderStatus s order.id OrderStatus.routing none
  match promiseAllTwo rq mq with
  | Except.error e => (Except.error e, failOrder s1 order.id e)
  | Except.ok (raydiumQuote, meteoraQuote) =>
    let routingDecision := selectBestDex raydiumQuote meteoraQuote order.amountIn
    let s2 := persistRoutingDecision s1 order.id routingDecision
    let s3 := updateOrderStatus s2 order.id OrderStatus.building none
    let s4 := updateOrderStatus s3 order.id OrderStatus.submitted none
    match exec routingDecision.dex with
    | Except.error e => (Except.error e, failOrder s4 order.id e)
    | Except.ok result =>
      let ed : ExecutionData :=
        { txHash := some result.txHash,
          executedPrice := some result.executedPrice,
          dex := some routingDecision.dex.str,
          gasUsed := some result.gasUsed }
      let s5 := updateOrderStatus s4 order.id OrderStatus.confirmed (some ed)
      (Except.ok ed,
        { s5 with
          counters := updateMetrics s5.counters routingDecision.dex.str true })

/-- Helper: incrementing a key yields old value plus one under lookup. -/
theorem alookup_incrKey_self (c : List (String × Nat)) (key : String) :
    alookup (incrKey c key) key = some ((alookup c key).getD 0 + 1) := by
  induction c with
  | nil => simp [incrKey, alookup]
  | cons p rest ih =>
    obtain ⟨k, n⟩ := p
    by_cases hk : k = key
    · simp [incrKey, hk, alookup]
    · simp [incrKey, hk, alookup, ih]

/-- Helper: incrementing one key leaves other keys unchanged. -/
theorem alookup_incrKey_other (c : List (String × Nat)) (key k : String)
    (hk : k ≠ key) : alookup (incrKey c key) k = alookup c k := by
  have hk2 : key ≠ k := Ne.symm hk
  induction c with
  | nil => simp [incrKey, alookup, hk2]
  | cons p rest ih =>
    obtain ⟨k0, n⟩ := p
    by_cases h0 : k0 = key
    · subst h0
      simp [incrKey, alookup, hk2]
    · simp [incrKey, h0, alookup, ih]

/-- Helper: a failed processing run increments the failed counter. -/
theorem alookup_updateMetrics_failed (c : List (String × Nat)) :
    alookup (updateMetrics c "" false) "stats:failed_orders" =
      some ((alookup c "stats:failed_orders").getD 0 + 1) := by
  unfold updateMetrics
  simp only [Bool.false_eq_true, if_false]
  rw [alookup_incrKey_self, alookup_incrKey_other]
  decide

/-- Helper: the choke point leaves counters unchanged. -/
theorem updateOrderStatus_counters (s : EngineState) (orderId : String)
    (status : OrderStatus) (data : Option ExecutionData) :
    (updateOrderStatus s orderId status data).counters = s.counters := rfl

/-- Helper: the choke point appends exactly one event. -/
theorem updateOrderStatus_events (s : EngineState) (orderId : String)
    (status : OrderStatus) (data : Option ExecutionData) :
    (updateOrderStatus s orderId status data).events =
      s.events ++ [{ orderId := orderId, status := status,
                     data := data.map EventData.exec }] := rfl

/-- Helper: the catch path appends exactly the failed event. -/
theorem failOrder_events (s : EngineState) (orderId e : String) :
    (failOrder s orderId e).events =
      s.events ++ [{ orderId := orderId, status := OrderStatus.failed,
                     data := some (EventData.exec { error := some e }) }] :=
  rfl

/-- Helper: the catch path increments the failed-orders counter. -/
theorem failOrder_counters (s : EngineState) (orderId e : String) :
    alookup (failOrder s orderId e).counters "stats:failed_orders" =
      some ((alookup s.counters "stats:failed_orders").getD 0 + 1) :=
  alookup_updateMetrics_failed s.counters

/-- Helper: the catch path stores failed status with the error message on an
existing row. -/
theorem failOrder_orders (s : EngineState) (orderId e : String)
    (r : OrderRow) (h : alookup s.orders orderId = some r) :
    alookup (failOrder s orderId e).orders orderId =
      some ⟨OrderStatus.failed, some { error := some e }⟩ :=
  alookup_rowUpdate_self s.orders orderId OrderStatus.failed
    (some { error := some e }) r h

/-- C4: whenever quote fetching or execution fails with error e, processOrder
surfaces exactly that error to the job runner (never swallowed), after
appending a terminal failed transition carrying the error message in the
execution data, storing failed status on the order row, and incrementing
the failed-orders metric. -/
theorem processOrder_failure_policy (s : EngineState) (order : Order)
    (rq mq : Except String DexQuote)
    (exec : DexName → Except String SwapResult) (e : String)
    (hfail : rq = Except.error e ∨
      (∃ q, rq = Except.ok q ∧ mq = Except.error e) ∨
      (∃ q1 q2, rq = Except.ok q1 ∧ mq = Except.ok q2 ∧
        exec (selectBestDex q1 q2 order.amountIn).dex = Except.error e)) :
    (processOrder s order rq mq exec).1 = Except.error e ∧
    (∃ mid, (processOrder s order rq mq exec).2.events =
      s.events ++ mid ++
        [{ orderId := order.id, status := OrderStatus.failed,
           data := some (EventData.exec { error := some e }) }]) ∧
    alookup (processOrder s order rq mq exec).2.counters
        "stats:failed_orders" =
      some ((alookup s.counters "stats:failed_orders").getD 0 + 1) ∧
    (∀ r, alookup s.orders order.id = some r →
      alookup (processOrder s order rq mq exec).2.orders order.id =
        some ⟨OrderStatus.failed, some { error := some e }⟩) := by
  rcases hfail with h | ⟨q, hq, hm⟩ | ⟨q1, q2, h1, h2, hx⟩
  · subst h
    refine ⟨rfl,
      ⟨[{ orderId := order.id, status := OrderStatus.routing, data := none }],
        rfl⟩,
      failOrder_counters _ order.id e, fun r hr => ?_⟩
    exact failOrder_orders _ order.id e _
      (alookup_rowUpdate_self s.orders order.id OrderStatus.routing none r hr)
  · subst hq; subst hm
    refine ⟨rfl,
      ⟨[{ orderId := order.id, status := OrderStatus.routing, data := none }],
        rfl⟩,
      failOrder_counters _ order.id e, fun r hr => ?_⟩
    exact failOrder_orders _ order.id e _
      (alookup_rowUpdate_self s.orders order.id OrderStatus.routing none r hr)
  · subst h1; subst h2
    have hres : processOrder s order (Except.ok q1) (Except.ok q2) exec =
        (Except.error e,
         failOrder
           (updateOrderStatus
             (updateOrderStatus
               (persistRoutingDecision
                 (updateOrderStatus s order.id OrderStatus.routing none)
                 order.id (selectBestDex q1 q2 order.amountIn))
               order.id OrderStatus.building none)
             order.id OrderStatus.submitted none)
           order.id e) := by
      unfold processOrder
      simp only [promiseAllTwo]
      rw [hx]
    rw [hres]
    refine ⟨rfl,
      ⟨[{ orderId := order.id, status := OrderStatus.routing, data := none },
        { orderId := order.id, status := OrderStatus.building, data := none },
        { orderId := order.id, status := OrderStatus.submitted, data := none }],
        ?_⟩,
      failOrder_counters _ order.id e, fun r hr => ?_⟩
    · show ((((s.events ++
          [{ orderId := order.id, status := OrderStatus.routing,
             data := none }]) ++
          [{ orderId := order.id, status := OrderStatus.building,
             data := none }]) ++
          [{ orderId := order.id, status := OrderStatus.submitted,
             data := none }]) ++
          [{ orderId := order.id, status := OrderStatus.failed,
             data := some (EventData.exec { error := some e }) }]) =
        s.events ++
          [{ orderId := order.id, status := OrderStatus.routing, data := none },
           { orderId := order.id, status := OrderStatus.building, data := none },
           { orderId := order.id, status := OrderStatus.submitted,
             data := none }] ++
          [{ orderId := order.id, status := OrderStatus.failed,
             data := some (EventData.exec { error := some e }) }]
      simp
    · have hr1 := alookup_rowUpdate_self s.orders order.id
        OrderStatus.routing none r hr
      have hr2 := alookup_rowUpdate_self _ order.id
        OrderStatus.building none _ hr1
      have hr3 := alookup_rowUpdate_self _ order.id
        OrderStatus.submitted none _ hr2
      exact failOrder_orders _ order.id e _ hr3

/-- Swap executor that always fails, used by the C4 witness. -/
def failingExec : DexName → Except String SwapResult :=
  fun _ => Except.error "exec failed"

/-- Witness for C4: a concrete quote-fetch failure on the pending state
propagates the same error and records the failed transition. -/
theorem processOrder_failure_policy_witness :
    ((Except.error "quote failed" : Except String DexQuote) =
        Except.error "quote failed" ∨
      (∃ q, (Except.error "quote failed" : Except String DexQuote) =
          Except.ok q ∧
        (Except.ok sampleMeteoraQuote : Except String DexQuote) =
          Except.error "quote failed") ∨
      (∃ q1 q2, (Except.error "quote failed" : Except String DexQuote) =
          Except.ok q1 ∧
        (Except.ok sampleMeteoraQuote : Except String DexQuote) =
          Except.ok q2 ∧
        failingExec (selectBestDex q1 q2 sampleOrder.amountIn).dex =
          Except.error "quote failed")) ∧
    ((processOrder pendingState sampleOrder (Except.error "quote failed")
        (Except.ok sampleMeteoraQuote) failingExec).1 =
      Except.error "quote failed" ∧
    (∃ mid, (processOrder pendingState sampleOrder
        (Except.error "quote failed") (Except.ok sampleMeteoraQuote)
        failingExec).2.events =
      pendingState.events ++ mid ++
        [{ orderId := sampleOrder.id, status := OrderStatus.failed,
           data := some (EventData.exec { error := some "quote failed" }) }]) ∧
    alookup (processOrder pendingState sampleOrder
        (Except.error "quote failed") (Except.ok sampleMeteoraQuote)
        failingExec).2.counters "stats:failed_orders" =
      some ((alookup pendingState.counters "stats:failed_orders").getD 0 + 1) ∧
    (∀ r, alookup pendingState.orders sampleOrder.id = some r →
      alookup (processOrder pendingState sampleOrder
          (Except.error "quote failed") (Except.ok sampleMeteoraQuote)
          failingExec).2.orders sampleOrder.id =
        some ⟨OrderStatus.failed, some { error := some "quote failed" }⟩)) :=
  ⟨Or.inl rfl,
    processOrder_failure_policy pendingState sampleOrder
      (Except.error "quote failed") (Except.ok sampleMeteoraQuote)
      failingExec "quote failed" (Or.inl rfl)⟩

/-- Modelled from the spec: the BullMQ job queue is an external library, not
code under src/. Per the spec, Submit enqueues a processing task keyed by
the order id with exactly one active task per order id, so adding a job
whose job id is already queued does not create a second task. -/
def enqueue (q : List String) (jobId : String) : List String :=
  if jobId ∈ q then q else q ++ [jobId]

/-- OrderProcessor.persistOrder: SQL INSERT of the order row; a duplicate
primary key makes the INSERT fail with no state change. -/
def persistOrder (s : EngineState) (order : Order) :
    Option String × EngineState :=
  match alookup s.orders order.id with
  | some _ => (some "duplicate key", s)
  | none =>
    (none, { s with orders := s.orders ++ [(order.id, ⟨order.status, none⟩)] })

/-- OrderProcessor.submitOrder: persists the order, adds the job with
jobId equal to the order id, then transitions to pending; an error from
persistence aborts before the enqueue and is rethrown. -/
def submitOrder (s : EngineState) (q : List String) (order : Order) :
    Option String × EngineState × List String :=
  match persistOrder s order with
  | (some e, s1) => (some e, s1, q)
  | (none, s1) =>
    let q1 := enqueue q order.id
    let s2 := updateOrderStatus s1 order.id OrderStatus.pending none
    (none, s2, q1)

/-- C7: submitOrder keys the processing task by the order id: the queue
either stays unchanged or gains exactly the order id at the end; an id that
is already queued is never enqueued again; and an id with at most one queued
task still has at most one afterwards, so no second concurrent process task
is created for that id. -/
theorem submitOrder_single_task (s : EngineState) (q : List String)
    (order : Order) :
    ((submitOrder s q order).2.2 = q ∨
      (submitOrder s q order).2.2 = q ++ [order.id]) ∧
    (order.id ∈ q → (submitOrder s q order).2.2 = q) ∧
    (q.count order.id ≤ 1 →
      ((submitOrder s q order).2.2).count order.id ≤ 1) := by
  unfold submitOrder
  cases hp : persistOrder s order with
  | mk err s1 =>
    cases err with
    | some e =>
      refine ⟨Or.inl rfl, fun _ => rfl, fun h => h⟩
    | none =>
      simp only
      by_cases hm : order.id ∈ q
      · refine ⟨Or.inl ?_, fun _ => ?_, fun h => ?_⟩ <;>
          simp [enqueue, hm] <;> exact h
      · refine ⟨Or.inr ?_, fun hmem => absurd hmem hm, fun h => ?_⟩
        · simp [enqueue, hm]
        · have hc : q.count order.id = 0 := List.count_eq_zero.mpr hm
          simp [enqueue, hm, List.count_append, hc]

/-- Witness for C7: re-submitting the order id o1 that is already queued
leaves the queue unchanged with a single task for that id. -/
theorem submitOrder_single_task_witness :
    ("o1" ∈ ["o1"]) ∧
    ((["o1"] : List String).count "o1" ≤ 1) ∧
    ((submitOrder pendingState ["o1"] sampleOrder).2.2 = ["o1"] ∧
      ((submitOrder pendingState ["o1"] sampleOrder).2.2).count "o1" ≤ 1) :=
  ⟨by decide, by decide,
    (submitOrder_single_task pendingState ["o1"] sampleOrder).2.1 (by decide),
    (submitOrder_single_task pendingState ["o1"] sampleOrder).2.2 (by decide)⟩

/-- SQL UPDATE of the cancellation route: sets status and updated_at only,
leaving execution_data untouched, and changes nothing for a missing row. -/
def rowSetStatus : List (String × OrderRow) → String → OrderStatus →
    List (String × OrderRow)
  | [], _, _ => []
  | (k, r) :: rest, key, st =>
    if k = key then (k, { r with status := st }) :: rest
    else (k, r) :: rowSetStatus rest key st

/-- HTTP outcome of the DELETE order route. -/
inductive CancelOutcome
  | notFound
  | conflict (st : OrderStatus)
  | cancelled
  deriving DecidableEq, Repr

/-- DELETE /api/orders/:orderId handler (server.ts): 404 when the order does
not exist; 400 conflict when the status is not pending, with no mutation;
otherwise updates the row to cancelled and inserts a cancelled event with
reason User cancelled. -/
def cancelOrder (s : EngineState) (orderId : String) :
    CancelOutcome × EngineState :=
  match alookup s.orders orderId with
  | none => (CancelOutcome.notFound, s)
  | some row =>
    if row.status ≠ OrderStatus.pending then
      (CancelOutcome.conflict row.status, s)
    else
      (CancelOutcome.cancelled,
       { s with
          orders := rowSetStatus s.orders orderId OrderStatus.cancelled,
          events := s.events ++
            [{ orderId := orderId, status := OrderStatus.cancelled,
               data := some (EventData.cancelReason "User cancelled") }] })

/-- Helper: setting the status of an existing row keeps its other fields. -/
theorem alookup_rowSetStatus_self (l : List (String × OrderRow))
    (key : String) (st : OrderStatus) (r : OrderRow)
    (h : alookup l key = some r) :
    alookup (rowSetStatus l key st) key = some { r with status := st } := by
  induction l with
  | nil => simp [alookup] at h
  | cons p rest ih =>
    obtain ⟨k, v⟩ := p
    by_cases hk : k = key
    · simp only [alookup, if_pos hk] at h
      cases h
      simp [rowSetStatus, hk, alookup]
    · simp only [alookup, if_neg hk] at h
      simp [rowSetStatus, hk, alookup, ih h]

/-- C9: cancellation succeeds exactly on a pending order, setting its status
to cancelled and appending a cancelled event; any other status yields a
conflict with the state unchanged; an unknown id yields not-found with the
state unchanged. -/
theorem cancelOrder_policy (s : EngineState) (orderId : String) :
    (alookup s.orders orderId = none →
      cancelOrder s orderId = (CancelOutcome.notFound, s)) ∧
    (∀ row, alookup s.orders orderId = some row →
      row.status ≠ OrderStatus.pending →
      cancelOrder s orderId = (CancelOutcome.conflict row.status, s)) ∧
    (∀ row, alookup s.orders orderId = some row →
      row.status = OrderStatus.pending →
      (cancelOrder s orderId).1 = CancelOutcome.cancelled ∧
      alookup (cancelOrder s orderId).2.orders orderId =
        some { row with status := OrderStatus.cancelled } ∧
      (cancelOrder s orderId).2.events =
        s.events ++
          [{ orderId := orderId, status := OrderStatus.cancelled,
             data := some (EventData.cancelReason "User cancelled") }]) := by
  refine ⟨fun hn => ?_, fun row hr hnp => ?_, fun row hr hp => ?_⟩
  · simp [cancelOrder, hn]
  · simp [cancelOrder, hr, hnp]
  · refine ⟨?_, ?_, ?_⟩ <;>
      simp [cancelOrder, hr, hp, alookup_rowSetStatus_self s.orders orderId
        OrderStatus.cancelled row hr]

/-- Witness for C9: cancelling the pending order o1 succeeds and appends the
cancelled event. -/
theorem cancelOrder_policy_witness :
    (alookup pendingState.orders "o1" =
      some ⟨OrderStatus.pending, none⟩) ∧
    ((⟨OrderStatus.pending, none⟩ : OrderRow).status = OrderStatus.pending) ∧
    ((cancelOrder pendingState "o1").1 = CancelOutcome.cancelled ∧
      alookup (cancelOrder pendingState "o1").2.orders "o1" =
        some ⟨OrderStatus.cancelled, none⟩ ∧
      (cancelOrder pendingState "o1").2.events =
        pendingState.events ++
          [{ orderId := "o1", status := OrderStatus.cancelled,
             data := some (EventData.cancelReason "User cancelled") }]) :=
  ⟨rfl, rfl,
    (cancelOrder_policy pendingState "o1").2.2 ⟨OrderStatus.pending, none⟩
      rfl rfl⟩

/-- Metrics report returned by getMetrics. -/
structure MetricsReport where
  totalOrders : Nat
  successfulOrders : Nat
  failedOrders : Nat
  raydiumRouted : Nat
  meteoraRouted : Nat
  successRate : ℚ
  deriving DecidableEq, Repr

/-- OrderProcessor.getMetrics: reads the five stats keys from Redis, treats
a missing key as 0, and computes the success rate only when totalOrders is
positive, returning 0 otherwise. -/
def getMetrics (c : List (String × Nat)) : MetricsReport :=
  let totalOrders := (alookup c "stats:total_orders").getD 0
  let successfulOrders := (alookup c "stats:successful_orders").getD 0
  { totalOrders := totalOrders
    successfulOrders := successfulOrders
    failedOrders := (alookup c "stats:failed_orders").getD 0
    raydiumRouted := (alookup c "stats:raydium_routed").getD 0
    meteoraRouted := (alookup c "stats:meteora_routed").getD 0
    successRate :=
      if 0 < totalOrders then
        ((successfulOrders : ℚ) / (totalOrders : ℚ)) * 100
      else 0 }

/-- C10: getMetrics is total on any counter contents: absent counters are
reported as 0, and the success rate is the guarded quotient, equal to 0 when
the total counter is 0 and to successful / total * 100 otherwise, so the
division is never taken with a zero total. -/
theorem getMetrics_total_guarded (c : List (String × Nat)) :
    (alookup c "stats:total_orders" = none →
      (getMetrics c).totalOrders = 0) ∧
    (alookup c "stats:successful_orders" = none →
      (getMetrics c).successfulOrders = 0) ∧
    (alookup c "stats:failed_orders" = none →
      (getMetrics c).failedOrders = 0) ∧
    (alookup c "stats:raydium_routed" = none →
      (getMetrics c).raydiumRouted = 0) ∧
    (alookup c "stats:meteora_routed" = none →
      (getMetrics c).meteoraRouted = 0) ∧
    ((getMetrics c).totalOrders = 0 → (getMetrics c).successRate = 0) ∧
    (0 < (getMetrics c).totalOrders →
      (getMetrics c).successRate =
        ((getMetrics c).successfulOrders : ℚ) /
          ((getMetrics c).totalOrders : ℚ) * 100) := by
  refine ⟨fun h => ?_, fun h => ?_, fun h => ?_, fun h => ?_, fun h => ?_,
    fun h => ?_, fun h => ?_⟩ <;>
    simp_all [getMetrics]

/-- Witness for C10 on the empty counter set: every counter reads 0 and the
success rate is 0 without dividing. -/
theorem getMetrics_total_guarded_witness :
    (alookup ([] : List (String × Nat)) "stats:total_orders" = none) ∧
    ((getMetrics []).totalOrders = 0) ∧
    ((getMetrics []).successRate = 0) :=
  ⟨rfl, (getMetrics_total_guarded []).1 rfl,
    (getMetrics_total_guarded []).2.2.2.2.2.1
      ((getMetrics_total_guarded []).1 rfl)⟩

/-! WebSocket manager model (services/websocketManager.ts). A subscriber
channel is identified by a socket id; whether a send on it throws is its
fixed behavior flag. Successful deliveries are logged as (socket id,
message) pairs. -/

/-- Subscriber channel: socket identity and whether send throws. -/
structure Channel where
  id : Nat
  fails : Bool
  deriving DecidableEq, Repr

/-- WebSocket manager state: the connections map and the delivery log. -/
structure WsState where
  connections : List (String × Channel)
  delivered : List (Nat × String)
  deriving DecidableEq, Repr

/-- Map.delete on the connections map (keys are unique in a JS Map). -/
def eraseKey (l : List (String × Channel)) (key : String) :
    List (String × Channel) :=
  l.filter (fun p => p.1 ≠ key)

/-- WebSocketManager.sendMessage: a missing connection is a warn-only no-op;
a throwing send removes the subscriber and delivers nothing; otherwise the
message is delivered. -/
def sendMessage (s : WsState) (orderId : String) (msg : String) : WsState :=
  match alookup s.connections orderId with
  | none => s
  | some ch =>
    if ch.fails then { s with connections := eraseKey s.connections orderId }
    else { s with delivered := s.delivered ++ [(ch.id, msg)] }

/-- Loop body of WebSocketManager.broadcast: iterates the entries present at
loop start; a throwing send removes that subscriber from the live map and
the loop continues with the rest. -/
def broadcastAux (msg : String) : WsState → List (String × Channel) → WsState
  | acc, [] => acc
  | acc, (k, ch) :: rest =>
    if ch.fails then
      broadcastAux msg { acc with connections := eraseKey acc.connections k }
        rest
    else
      broadcastAux msg { acc with delivered := acc.delivered ++ [(ch.id, msg)] }
        rest

/-- WebSocketManager.broadcast over the current connections. -/
def broadcast (s : WsState) (msg : String) : WsState :=
  broadcastAux msg s s.connections

/-- Helper: looking up a key just erased yields nothing. -/
theorem alookup_eraseKey_self (l : List (String × Channel)) (key : String) :
    alookup (eraseKey l key) key = none := by
  induction l with
  | nil => rfl
  | cons p rest ih =>
    obtain ⟨k, c⟩ := p
    by_cases hk : k = key
    · simpa [eraseKey, hk] using ih
    · simpa [eraseKey, hk, alookup] using ih

/-- Helper: membership in an erased map implies prior membership with a
different key. -/
theorem mem_eraseKey (l : List (String × Channel)) (key : String)
    (p : String × Channel) (h : p ∈ eraseKey l key) :
    p ∈ l ∧ p.1 ≠ key := by
  unfold eraseKey at h
  rcases List.mem_filter.mp h with ⟨h1, h2⟩
  exact ⟨h1, by simpa using h2⟩

/-- Helper: erasing a key touches no entry with other keys. -/
theorem eraseKey_of_not_mem (l : List (String × Channel)) (key : String)
    (h : ∀ p ∈ l, p.1 ≠ key) : eraseKey l key = l := by
  unfold eraseKey
  exact List.filter_eq_self.mpr (fun p hp => by simpa using h p hp)

/-- Helper: the broadcast loop delivers exactly to the non-throwing
subscribers of the iterated list, in order, regardless of removals. -/
theorem broadcastAux_delivered (msg : String) (l : List (String × Channel)) :
    ∀ acc : WsState, (broadcastAux msg acc l).delivered =
      acc.delivered ++ (l.filter (fun p => !p.2.fails)).map
        (fun p => (p.2.id, msg)) := by
  induction l with
  | nil => intro acc; simp [broadcastAux]
  | cons p rest ih =>
    intro acc
    obtain ⟨k, ch⟩ := p
    by_cases hf : ch.fails
    · simp [broadcastAux, hf, ih]
    · simp [broadcastAux, hf, ih]

/-- Helper: the broadcast loop keeps processed and pending entries linked:
with pairwise distinct keys, the final map is the starting map minus the
throwing subscribers of the iterated list. -/
theorem broadcastAux_connections (msg : String) :
    ∀ (l pre : List (String × Channel)) (d : List (Nat × String)),
      (∀ p ∈ l, ∀ q ∈ pre, p.1 ≠ q.1) → (l.map Prod.fst).Nodup →
      (broadcastAux msg ⟨pre ++ l, d⟩ l).connections =
        pre ++ l.filter (fun p => !p.2.fails) := by
  intro l
  induction l with
  | nil => intro pre d _ _; simp [broadcastAux]
  | cons p rest ih =>
    intro pre d hdis hnd
    obtain ⟨k, ch⟩ := p
    have hkpre : ∀ q ∈ pre, k ≠ q.1 :=
      fun q hq => hdis (k, ch) (List.mem_cons_self _ _) q hq
    have hnd2 : (k :: rest.map Prod.fst).Nodup := by simpa using hnd
    have hkrest : ∀ q ∈ rest, q.1 ≠ k := by
      intro q hq hqk
      apply (List.nodup_cons.mp hnd2).1
      have hmem : q.1 ∈ rest.map Prod.fst := List.mem_map_of_mem Prod.fst hq
      rwa [hqk] at hmem
    by_cases hf : ch.fails
    · have herase : eraseKey (pre ++ (k, ch) :: rest) k = pre ++ rest := by
        unfold eraseKey
        rw [List.filter_append]
        have h1 : pre.filter (fun p => p.1 ≠ k) = pre :=
          List.filter_eq_self.mpr
            (fun q hq => by simpa using (hkpre q hq).symm)
        have h2 : ((k, ch) :: rest).filter (fun p => p.1 ≠ k) = rest := by
          simp only [List.filter_cons]
          have : ((k, ch).1 ≠ k) = False := by simp
          simp only [this]
          simp only [decide_False, if_false]
          exact List.filter_eq_self.mpr
            (fun q hq => by simpa using hkrest q hq)
        rw [h1, h2]
      have hstep : broadcastAux msg ⟨pre ++ (k, ch) :: rest, d⟩
          ((k, ch) :: rest) =
          broadcastAux msg ⟨pre ++ rest, d⟩ rest := by
        simp [broadcastAux, hf, herase]
      rw [hstep, ih pre d (fun p hp q hq =>
          hdis p (List.mem_cons_of_mem _ hp) q hq)
        (List.nodup_cons.mp hnd).2]
      simp [List.filter_cons, hf]
    · have hstep : broadcastAux msg ⟨pre ++ (k, ch) :: rest, d⟩
          ((k, ch) :: rest) =
          broadcastAux msg ⟨(pre ++ [(k, ch)]) ++ rest,
            d ++ [(ch.id, msg)]⟩ rest := by
        simp [broadcastAux, hf]
      rw [hstep, ih (pre ++ [(k, ch)]) (d ++ [(ch.id, msg)]) ?_
        (List.nodup_cons.mp hnd).2]
      · simp [List.filter_cons, hf]
      · intro p hp q hq
        rcases List.mem_append.mp hq with hq1 | hq2
        · exact hdis p (List.mem_cons_of_mem _ hp) q hq1
        · have : q = (k, ch) := by simpa using hq2
          subst this
          exact hkrest p hp


/-- Helper: broadcast with unique keys removes exactly the throwing
subscribers and delivers to every non-throwing subscriber. -/
theorem broadcast_spec (s : WsState) (msg : String)
    (hN : (s.connections.map Prod.fst).Nodup) :
    (broadcast s msg).connections =
      s.connections.filter (fun p => !p.2.fails) ∧
    (broadcast s msg).delivered = s.delivered ++
      (s.connections.filter (fun p => !p.2.fails)).map
        (fun p => (p.2.id, msg)) := by
  constructor
  · have h := broadcastAux_connections msg s.connections [] s.delivered
      (by simp) hN
    simpa [broadcast] using h
  · simpa [broadcast] using
      broadcastAux_delivered msg s.connections s

/-- C8: a subscriber whose delivery throws during sendMessage is removed
from the map with nothing delivered; a subsequent sendMessage for that id is
a no-op; a subsequent broadcast delivers only to the remaining non-throwing
subscribers and never to the removed channel; and broadcast in general
removes each throwing subscriber independently while delivering to every
non-throwing one without aborting. -/
theorem subscriber_failure_removal (s : WsState) (oid m m2 m3 : String)
    (ch : Channel) (hch : alookup s.connections oid = some ch)
    (hfail : ch.fails = true)
    (hN : (s.connections.map Prod.fst).Nodup)
    (hid : ∀ p ∈ s.connections, p.2.id = ch.id → p.1 = oid) :
    alookup (sendMessage s oid m).connections oid = none ∧
    (sendMessage s oid m).delivered = s.delivered ∧
    sendMessage (sendMessage s oid m) oid m2 = sendMessage s oid m ∧
    ((broadcast (sendMessage s oid m) m3).delivered =
      (sendMessage s oid m).delivered ++
        ((sendMessage s oid m).connections.filter
          (fun p => !p.2.fails)).map (fun p => (p.2.id, m3)) ∧
      ∀ x ∈ ((sendMessage s oid m).connections.filter
          (fun p => !p.2.fails)).map (fun p => (p.2.id, m3)),
        x.1 ≠ ch.id) ∧
    ((broadcast s m3).connections =
      s.connections.filter (fun p => !p.2.fails) ∧
    (broadcast s m3).delivered = s.delivered ++
      (s.connections.filter (fun p => !p.2.fails)).map
        (fun p => (p.2.id, m3))) := by
  have hsend : sendMessage s oid m =
      { s with connections := eraseKey s.connections oid } := by
    simp [sendMessage, hch, hfail]
  have hnone : alookup (sendMessage s oid m).connections oid = none := by
    rw [hsend]
    exact alookup_eraseKey_self s.connections oid
  have hN' : (((sendMessage s oid m).connections).map Prod.fst).Nodup := by
    rw [hsend]
    exact List.Nodup.sublist
      (List.Sublist.map Prod.fst (List.filter_sublist _)) hN
  have hnoop : ∀ (t : WsState) (msg : String),
      alookup t.connections oid = none → sendMessage t oid msg = t := by
    intro t msg ht
    simp [sendMessage, ht]
  refine ⟨hnone, by rw [hsend], ?_, ⟨?_, ?_⟩, broadcast_spec s m3 hN⟩
  · exact hnoop _ m2 hnone
  · exact (broadcast_spec (sendMessage s oid m) m3 hN').2
  · intro x hx
    rcases List.mem_map.mp hx with ⟨p, hp, rfl⟩
    have hp2 := (List.mem_filter.mp hp).1
    rw [hsend] at hp2
    rcases mem_eraseKey s.connections oid p hp2 with ⟨hmem, hne⟩
    intro hxid
    exact hne (hid p hmem hxid)

/-- Sample fan-out state: a throwing subscriber for o1 and a healthy one
for o2. -/
def wsSample : WsState :=
  { connections := [("o1", ⟨1, true⟩), ("o2", ⟨2, false⟩)], delivered := [] }

/-- Witness for C8 on the sample fan-out state. -/
theorem subscriber_failure_removal_witness :
    (alookup wsSample.connections "o1" = some ⟨1, true⟩) ∧
    ((⟨1, true⟩ : Channel).fails = true) ∧
    ((wsSample.connections.map Prod.fst).Nodup) ∧
    (∀ p ∈ wsSample.connections,
      p.2.id = (⟨1, true⟩ : Channel).id → p.1 = "o1") ∧
    (alookup (sendMessage wsSample "o1" "a").connections "o1" = none ∧
    (sendMessage wsSample "o1" "a").delivered = wsSample.delivered ∧
    sendMessage (sendMessage wsSample "o1" "a") "o1" "b" =
      sendMessage wsSample "o1" "a" ∧
    ((broadcast (sendMessage wsSample "o1" "a") "c").delivered =
      (sendMessage wsSample "o1" "a").delivered ++
        ((sendMessage wsSample "o1" "a").connections.filter
          (fun p => !p.2.fails)).map (fun p => (p.2.id, "c")) ∧
      ∀ x ∈ ((sendMessage wsSample "o1" "a").connections.filter
          (fun p => !p.2.fails)).map (fun p => (p.2.id, "c")),
        x.1 ≠ (⟨1, true⟩ : Channel).id) ∧
    ((broadcast wsSample "c").connections =
      wsSample.connections.filter (fun p => !p.2.fails) ∧
    (broadcast wsSample "c").delivered = wsSample.delivered ++
      (wsSample.connections.filter (fun p => !p.2.fails)).map
        (fun p => (p.2.id, "c")))) :=
  ⟨rfl, rfl, by decide, by decide,
    subscriber_failure_removal wsSample "o1" "a" "b" "c" ⟨1, true⟩ rfl rfl
      (by decide) (by decide)⟩

end OrderExecEngine
